import Mathlib

/-!
Verification of the Morningstar crawler (`morningstar_crawler.py`).

This file gives a shallow embedding of the crawler's decision logic:

* `analyze_url` — `MorningstarCrawler._analyze_url` (the link classifier);
* `scanHeader` / `processRow` / `get_stock_details` — the table extractor
  `MorningstarCrawler._get_stock_details`, with the table's rendered texts
  (header cells and row cells) as input and the sequence of produced
  `stock_info` records as output;
* `click_all` / `internal_click` — the indirect-revisit loop
  `MorningstarCrawler.click_all`, over an oracle describing the outcome of
  each browser interaction;
* `get_file_name` / `rename_file` / `get_stock_newsletters` — the newsletter
  fetcher, with the download directory modelled as a list of file names and
  the name of each landed download given by an oracle;
* `load_module` — the module-level `GOOGLE_API_KEY` check.

Python dictionaries are modelled as association lists with in-place update
(`dictInsert`), which preserves Python's insertion-order iteration semantics.
Python `str.strip` is `pyStrip`, `str.split(" ")` is `pySplitSpace`, and
`s.replace("-", "")` is `removeHyphens`; these are written as structural
recursions over the character list so that every definition evaluates inside
the kernel.
-/

/-- Python `dict` assignment `d[k] = v` on an association list: replace the
value in place if the key is present (keeping its position, as CPython does),
else append the new binding at the end. -/
def dictInsert {κ α : Type} [DecidableEq κ] (k : κ) (v : α) : List (κ × α) → List (κ × α)
  | [] => [(k, v)]
  | q :: rest => if q.1 = k then (k, v) :: rest else q :: dictInsert k v rest

/-- Python `str.strip()`: drop leading and trailing whitespace. -/
def pyStrip (s : String) : String :=
  ⟨((s.toList.dropWhile Char.isWhitespace).reverse.dropWhile Char.isWhitespace).reverse⟩

/-- Python `text.split(" ")` (split on every single space, keeping empty
fields), as a recursion over the characters with the pending field
accumulated in reverse. -/
def pySplitSpaceAux : List Char → List Char → List String
  | [], cur => [⟨cur.reverse⟩]
  | c :: rest, cur =>
    if c = ' ' then ⟨cur.reverse⟩ :: pySplitSpaceAux rest []
    else pySplitSpaceAux rest (c :: cur)

/-- Python `text.split(" ")`. -/
def pySplitSpace (s : String) : List String := pySplitSpaceAux s.toList []

/-- Python `s.replace("-", "")`: for the one-character pattern this removes
every hyphen. -/
def removeHyphens (s : String) : String := ⟨s.toList.filter (fun c => ¬ c = '-')⟩

/-! ## Link classifier (`MorningstarCrawler._analyze_url`, lines 164–169) -/

/-- `MorningstarCrawler.URLType`: `OPEN` is the Direct strategy, `CLICK` the
Indirect one. -/
inductive URLType where
  | OPEN
  | CLICK
  | UNSUPPORTED
deriving DecidableEq

/-- Python's substring test `pat in url`, as infix of the character lists. -/
def strContains (s pat : String) : Prop := pat.toList <:+: s.toList

instance (s pat : String) : Decidable (strContains s pat) :=
  inferInstanceAs (Decidable (_ <:+: _))

/-- `MorningstarCrawler._analyze_url`: `"pick-list" in url` gives `OPEN`,
else `"model-portfolio" in url` gives `CLICK`, else `UNSUPPORTED`. -/
def analyze_url (url : String) : URLType :=
  if strContains url "pick-list" then URLType.OPEN
  else if strContains url "model-portfolio" then URLType.CLICK
  else URLType.UNSUPPORTED

/-! ## Table extractor (`MorningstarCrawler._get_stock_details`, lines 171–219)

A rendered table region is its header-cell texts `ths` and, per `tbody`, the
list of rows, each row being the texts of its `mdc-table-cell` elements. -/

/-- A rendered table region: the `th` texts and, for each `tbody`, its rows'
cell texts. -/
structure Table where
  ths : List String
  tbodies : List (List (List String))

/-- All body rows of the region, tbodies in document order. -/
def allRows (t : Table) : List (List String) := t.tbodies.flatten

/-- The header scan of `_get_stock_details` (lines 191–195):
`for i, th in enumerate(ths)` builds `interesting_indexes` (label → index,
for stripped labels in the wanted set) and `filter_indexes` (index → label,
for stripped labels that are filter keys). `i` is the running index. -/
def scanHeaderAux (w : List String) (fc : List (String × List String)) :
    Nat → List String → List (String × Nat) × List (Nat × String) →
      List (String × Nat) × List (Nat × String)
  | _, [], acc => acc
  | i, th :: rest, acc =>
    scanHeaderAux w fc (i + 1) rest
      ((if pyStrip th ∈ w then dictInsert (pyStrip th) i acc.1 else acc.1),
       (if (fc.lookup (pyStrip th)).isSome then dictInsert i (pyStrip th) acc.2 else acc.2))

/-- `interesting_indexes` and `filter_indexes` for a header row. -/
def scanHeader (ths : List String) (w : List String) (fc : List (String × List String)) :
    List (String × Nat) × List (Nat × String) :=
  scanHeaderAux w fc 0 ths ([], [])

/-- Cell access `tds[index].text`: out-of-range reads default to `""` (the
code only indexes in range). -/
def cellAt (tds : List String) (i : Nat) : String := tds.getD i ""

/-- The `filtered` flag of lines 205–210: some filter index's stripped cell
value is not in that column's accepted set. -/
def rowFiltered (fi : List (Nat × String)) (fc : List (String × List String))
    (tds : List String) : Bool :=
  fi.any (fun p => !(decide (pyStrip (cellAt tds p.1) ∈ (fc.lookup p.2).getD [])))

/-- The `stock_info` record of lines 213–216: fold `interesting_indexes` in
insertion order, keeping only in-range indexes. -/
def buildRecord (ii : List (String × Nat)) (tds : List String) : List (String × String) :=
  ii.foldl (fun acc p => if p.2 < tds.length then dictInsert p.1 (pyStrip (cellAt tds p.2)) acc else acc) []

/-- The body of the row loop (lines 201–217): skip the row on cell-count
mismatch, skip it when filtered, else produce the record. -/
def processRow (ths : List String) (ii : List (String × Nat)) (fi : List (Nat × String))
    (fc : List (String × List String)) (tds : List String) : Option (List (String × String)) :=
  if tds.length ≠ ths.length then none
  else if rowFiltered fi fc tds then none
  else some (buildRecord ii tds)

/-- `_get_stock_details` on a rendered table region: the sequence of
`stock_info` records it reports, in document order. `w` is
`interesting_columns`, `fc` is `filter_criteria`. -/
def get_stock_details (w : List String) (fc : List (String × List String)) (t : Table) :
    List (List (String × String)) :=
  (t.tbodies.map (fun rows =>
    rows.filterMap (processRow t.ths (scanHeader t.ths w fc).1 (scanHeader t.ths w fc).2 fc))).flatten

/-- The hard-coded `interesting_columns` of line 185. -/
def interesting_columns : List String := ["Name", "Ticker", "Fair Value", "Price/Fair Value"]

/-- The hard-coded `filter_criteria` of line 189. -/
def filter_criteria : List (String × List String) := [("Base Currency", ["US Dollar"])]

/-! ## Indirect revisit loop (`MorningstarCrawler.click_all`, lines 117–162)

The browser's behaviour is an oracle: per catalog card an optional resolved
`href` (`none` models a `NoSuchElementException` while locating the title
link, caught per card) and whether the wait-until-clickable plus keystroke
succeed; per queued target, whether each step of the loop body that is *not*
inside a `try` succeeds. -/

/-- One catalog card as seen during re-enumeration inside `_internal_click`. -/
structure CardOutcome where
  titleHref : Option String
  clickOk : Bool

/-- The outcome of the browser interactions of one iteration of the outer
loop of `click_all` (lines 140–162): the header wait, the wait for the
side-panel toggle to be clickable, finding the toggle, clicking it, and the
cards seen by `_internal_click`. -/
structure RevisitOutcome where
  headerWaitOk : Bool
  toggleWaitOk : Bool
  toggleFindOk : Bool
  toggleClickOk : Bool
  cards : List CardOutcome

/-- `_internal_click` (lines 120–138): scan the re-enumerated cards; every
exception inside the card loop is caught and the scan continues; on the first
card whose `href` equals the target URL and whose activation succeeds, run
the extractor (whose own errors are caught inside `_get_stock_details`) and
`break`. Returns whether some card was activated. -/
def internal_click (actual_url : String) : List CardOutcome → Bool
  | [] => false
  | c :: rest =>
    match c.titleHref with
    | none => internal_click actual_url rest
    | some href =>
      if href = actual_url then
        if c.clickOk then true else internal_click actual_url rest
      else internal_click actual_url rest

/-- `click_all` (lines 140–162), iterating the queued targets from position
`i` of the oracle. The header wait, toggle wait, toggle lookup and toggle
click of the loop body are *not* inside any `try`: a failure there raises out
of `click_all`. The result is the list of targets whose `_internal_click` was
reached (paired with whether a card was activated), and the uncaught
exception, if any, that ended the loop. -/
def click_all (world : Nat → RevisitOutcome) : Nat → List String → List (String × Bool) × Option String
  | _, [] => ([], none)
  | i, url :: rest =>
    let w := world i
    if w.headerWaitOk = false then ([], some "TimeoutException: investment-ideas__section-header")
    else if w.toggleWaitOk = false then ([], some "TimeoutException: mds-navigation-panel-toggle-button")
    else if w.toggleFindOk = false then ([], some "NoSuchElementException: mds-navigation-panel-toggle-button")
    else if w.toggleClickOk = false then ([], some "ElementNotInteractableException: toggle click")
    else
      let activated := internal_click url w.cards
      let tail := click_all world (i + 1) rest
      ((url, activated) :: tail.1, tail.2)

/-! ## Newsletter fetcher (`get_stock_newsletters`, `_download`,
`_rename_file`, `_get_file_name`, lines 221–276)

The download directory is a list of file names (set-like: no duplicates are
ever created). A download that completes lands one file whose name is chosen
by the site, modelled by the oracle `land : url → file name`. -/

/-- `_get_file_name` (lines 274–276): `"".join(text.split(" ")[-2:])`.
Python's `[-2:]` keeps the whole list when it has fewer than two elements,
which is `drop (length - 2)` with truncated subtraction. -/
def get_file_name (text : String) : String :=
  String.join ((pySplitSpace text).drop ((pySplitSpace text).length - 2))

/-- `_rename_file` (lines 261–272) acting on the download directory `fs`:
try the literal name, then the hyphen-stripped variant; the second missing-
file check only prints a diagnostic, after which `os.rename` runs
unconditionally and raises `FileNotFoundError` when the chosen source does
not exist. On success the source is removed and the target created. -/
def rename_file (fs : List String) (filename new_filename : String) :
    Except String (List String × String) :=
  let original := if filename ∈ fs then filename else removeHyphens filename
  if original ∈ fs then
    Except.ok ((fs.erase original).insert new_filename, new_filename)
  else
    Except.error "FileNotFoundError"

/-- The download loop of `get_stock_newsletters` (lines 236–243) over the
discovered `(url, text)` pairs: skip an entry whose canonical name already
exists, else download (the landed file is `land url`) and rename it; an
exception from the rename propagates and aborts the whole call. Returns the
`downloads` list and the final directory contents. -/
def newsletters_loop (land : String → String) :
    List (String × String) → List String → Except String (List String × List String)
  | [], fs => Except.ok ([], fs)
  | (url, text) :: rest, fs =>
    let file_name := get_file_name text ++ ".pdf"
    if file_name ∈ fs then newsletters_loop land rest fs
    else
      match rename_file (fs.insert (land url)) (text ++ ".pdf") file_name with
      | Except.error e => Except.error e
      | Except.ok (fs', fn) =>
        match newsletters_loop land rest fs' with
        | Except.error e => Except.error e
        | Except.ok (downloads, fs'') => Except.ok (fn :: downloads, fs'')

/-- `get_stock_newsletters` (lines 221–244) after the entry enumeration:
`arr` is the list of `(href, text)` pairs read from the headings, `fs` the
download directory. -/
def get_stock_newsletters (land : String → String) (arr : List (String × String))
    (fs : List String) : Except String (List String × List String) :=
  newsletters_loop land arr fs

/-! ## Module-level configuration (lines 19–28) -/

/-- The module-level key check of lines 23–28: `os.getenv("GOOGLE_API_KEY")`
is falsy when the variable is unset or empty, in which case a `ValueError`
is raised at import time; otherwise `genai.configure` runs (the configured
summarization client is never invoked by any other definition in this
file, mirroring that `genai` appears nowhere else in the source). -/
def load_module (env : String → Option String) : Except String Unit :=
  match env "GOOGLE_API_KEY" with
  | none =>
    Except.error "GOOGLE_API_KEY not found. Please set it in your environment or a .env file."
  | some key =>
    if key = "" then
      Except.error "GOOGLE_API_KEY not found. Please set it in your environment or a .env file."
    else Except.ok ()

/-- Running the program: the module body executes before `main`, so a load
failure aborts before any login or navigation; on success the run's
navigation trace is whatever the crawl performs, which does not depend on
the key. -/
def run_program (env : String → Option String) (crawlTrace : List String) :
    Except String (List String) :=
  match load_module env with
  | Except.error e => Except.error e
  | Except.ok _ => Except.ok crawlTrace

/-! ## Association-list lemmas -/

theorem mem_dictInsert_self {κ α : Type} [DecidableEq κ] (k : κ) (v : α) (d : List (κ × α)) :
    (k, v) ∈ dictInsert k v d := by
  induction d with
  | nil => simp [dictInsert]
  | cons q rest ih =>
    by_cases h : q.1 = k <;> simp [dictInsert, h, ih]

theorem mem_dictInsert_of_ne {κ α : Type} [DecidableEq κ] {k' : κ} {v' : α} (k : κ) (v : α)
    (d : List (κ × α)) (hm : (k', v') ∈ d) (hne : k' ≠ k) : (k', v') ∈ dictInsert k v d := by
  induction d with
  | nil => cases hm
  | cons q rest ih =>
    rcases List.mem_cons.mp hm with h | h
    · subst h
      simp only [dictInsert]
      rw [if_neg hne]
      exact List.mem_cons_self _ _
    · by_cases hq : q.1 = k
      · simp only [dictInsert, if_pos hq]
        exact List.mem_cons_of_mem _ h
      · simp only [dictInsert, if_neg hq]
        exact List.mem_cons_of_mem _ (ih h)

theorem mem_dictInsert_elim {κ α : Type} [DecidableEq κ] {p : κ × α} {k : κ} {v : α}
    {d : List (κ × α)} (h : p ∈ dictInsert k v d) : p = (k, v) ∨ p ∈ d := by
  induction d with
  | nil => simpa [dictInsert] using h
  | cons q rest ih =>
    by_cases hq : q.1 = k
    · simp only [dictInsert, if_pos hq, List.mem_cons] at h
      rcases h with h | h
      · exact Or.inl h
      · exact Or.inr (List.mem_cons_of_mem _ h)
    · simp only [dictInsert, if_neg hq, List.mem_cons] at h
      rcases h with h | h
      · exact Or.inr (List.mem_cons.mpr (Or.inl h))
      · rcases ih h with h' | h'
        · exact Or.inl h'
        · exact Or.inr (List.mem_cons_of_mem _ h')

/-! ## Header-scan invariants -/

/-- Entries of `filter_indexes` whose index is below the running counter are
never overwritten by the remaining header cells. -/
theorem scanHeaderAux_fi_preserved (w : List String) (fc : List (String × List String)) :
    ∀ (rest : List String) (i : Nat) (acc : List (String × Nat) × List (Nat × String))
      (k : Nat) (lab : String), (k, lab) ∈ acc.2 → k < i →
      (k, lab) ∈ (scanHeaderAux w fc i rest acc).2 := by
  intro rest
  induction rest with
  | nil => intro i acc k lab hm _; exact hm
  | cons th rest ih =>
    intro i acc k lab hm hk
    simp only [scanHeaderAux]
    refine ih (i + 1) _ k lab ?_ (Nat.lt_succ_of_lt hk)
    by_cases hs : (fc.lookup (pyStrip th)).isSome
    · simpa [hs] using mem_dictInsert_of_ne i (pyStrip th) acc.2 hm (Nat.ne_of_lt hk)
    · simpa [hs] using hm

/-- Every header position whose stripped label is a filter key ends up in
`filter_indexes`, bound to that label. -/
theorem scanHeaderAux_fi_complete (w : List String) (fc : List (String × List String)) :
    ∀ (rest : List String) (i : Nat) (acc : List (String × Nat) × List (Nat × String))
      (j : Nat), j < rest.length → ((fc.lookup (pyStrip (rest.getD j ""))).isSome) →
      (i + j, pyStrip (rest.getD j "")) ∈ (scanHeaderAux w fc i rest acc).2 := by
  intro rest
  induction rest with
  | nil => intro i acc j hj; exact absurd hj (by simp)
  | cons th rest ih =>
    intro i acc j hj hs
    match j with
    | 0 =>
      simp only [List.getD_cons_zero] at hs ⊢
      simp only [scanHeaderAux]
      refine scanHeaderAux_fi_preserved w fc rest (i + 1) _ i (pyStrip th) ?_ (Nat.lt_succ_self i)
      simpa [hs] using mem_dictInsert_self i (pyStrip th) acc.2
    | j + 1 =>
      simp only [List.getD_cons_succ] at hs ⊢
      have := ih (i + 1) ((if pyStrip th ∈ w then dictInsert (pyStrip th) i acc.1 else acc.1),
        (if (fc.lookup (pyStrip th)).isSome then dictInsert i (pyStrip th) acc.2 else acc.2)) j
        (by simpa using Nat.lt_of_succ_lt_succ hj) hs
      simpa [scanHeaderAux, Nat.add_assoc, Nat.add_comm 1 j] using this

/-- Every `filter_indexes` entry carries a stripped header label. -/
theorem scanHeaderAux_fi_sound (w : List String) (fc : List (String × List String)) :
    ∀ (rest : List String) (i : Nat) (acc : List (String × Nat) × List (Nat × String))
      (p : Nat × String), p ∈ (scanHeaderAux w fc i rest acc).2 →
      p ∈ acc.2 ∨ p.2 ∈ rest.map pyStrip := by
  intro rest
  induction rest with
  | nil => intro i acc p hp; exact Or.inl hp
  | cons th rest ih =>
    intro i acc p hp
    simp only [scanHeaderAux] at hp
    rcases ih (i + 1) _ p hp with h | h
    · by_cases hs : (fc.lookup (pyStrip th)).isSome
      · simp only [hs, if_pos] at h
        rcases mem_dictInsert_elim h with h' | h'
        · subst h'; exact Or.inr (by simp)
        · exact Or.inl h'
      · simp only [hs] at h
        exact Or.inl (by simpa using h)
    · exact Or.inr (by simp [h])

/-- Every `interesting_indexes` entry's key is a wanted column label. -/
theorem scanHeaderAux_ii_sound (w : List String) (fc : List (String × List String)) :
    ∀ (rest : List String) (i : Nat) (acc : List (String × Nat) × List (Nat × String))
      (p : String × Nat), p ∈ (scanHeaderAux w fc i rest acc).1 →
      p ∈ acc.1 ∨ p.1 ∈ w := by
  intro rest
  induction rest with
  | nil => intro i acc p hp; exact Or.inl hp
  | cons th rest ih =>
    intro i acc p hp
    simp only [scanHeaderAux] at hp
    rcases ih (i + 1) _ p hp with h | h
    · by_cases hw : pyStrip th ∈ w
      · simp only [hw, if_pos] at h
        rcases mem_dictInsert_elim h with h' | h'
        · subst h'; exact Or.inr hw
        · exact Or.inl h'
      · simp only [hw] at h
        exact Or.inl (by simpa using h)
    · exact Or.inr h

/-! ## Row-processing lemmas -/

theorem rowFiltered_eq_false_iff (fi : List (Nat × String)) (fc : List (String × List String))
    (tds : List String) : rowFiltered fi fc tds = false ↔
      ∀ p ∈ fi, pyStrip (cellAt tds p.1) ∈ (fc.lookup p.2).getD [] := by
  simp [rowFiltered, List.any_eq_false]

theorem processRow_eq_some (ths : List String) (ii : List (String × Nat))
    (fi : List (Nat × String)) (fc : List (String × List String)) (tds : List String)
    (rec : List (String × String)) (h : processRow ths ii fi fc tds = some rec) :
    tds.length = ths.length ∧ rowFiltered fi fc tds = false ∧ rec = buildRecord ii tds := by
  unfold processRow at h
  by_cases h1 : tds.length = ths.length
  · rw [if_neg (fun hn => hn h1)] at h
    by_cases h2 : rowFiltered fi fc tds
    · rw [if_pos h2] at h; cases h
    · rw [if_neg h2] at h
      exact ⟨h1, Bool.eq_false_iff.mpr h2, (Option.some_inj.mp h).symm⟩
  · rw [if_pos h1] at h; cases h

theorem mem_get_stock_details (w : List String) (fc : List (String × List String)) (t : Table)
    (rec : List (String × String)) (h : rec ∈ get_stock_details w fc t) :
    ∃ tds, tds ∈ allRows t ∧
      processRow t.ths (scanHeader t.ths w fc).1 (scanHeader t.ths w fc).2 fc tds = some rec := by
  simp only [get_stock_details, List.mem_flatten, List.mem_map] at h
  obtain ⟨l, ⟨rows, hrows, rfl⟩, hl⟩ := h
  obtain ⟨tds, htds, hp⟩ := List.mem_filterMap.mp hl
  exact ⟨tds, List.mem_flatten.mpr ⟨rows, hrows, htds⟩, hp⟩

theorem buildRecord_keys (w : List String) (tds : List String) :
    ∀ (ii : List (String × Nat)) (acc : List (String × String)),
      (∀ p ∈ ii, p.1 ∈ w) → (∀ q ∈ acc, q.1 ∈ w) →
      ∀ q ∈ ii.foldl (fun acc p =>
        if p.2 < tds.length then dictInsert p.1 (pyStrip (cellAt tds p.2)) acc else acc) acc,
        q.1 ∈ w := by
  intro ii
  induction ii with
  | nil => intro acc _ hacc q hq; exact hacc q hq
  | cons p rest ih =>
    intro acc hii hacc q hq
    simp only [List.foldl_cons] at hq
    refine ih _ (fun r hr => hii r (List.mem_cons_of_mem _ hr)) ?_ q hq
    intro r hr
    by_cases hlt : p.2 < tds.length
    · simp only [if_pos hlt] at hr
      rcases mem_dictInsert_elim hr with h' | h'
      · subst h'; exact hii p (List.mem_cons_self _ _)
      · exact hacc r h'
    · simp only [if_neg hlt] at hr
      exact hacc r hr

/-- C3. For every record returned by the table extractor there is a source
row of matching cell count from which the record was built, and for every
header position whose stripped label is a filter key, that row's stripped
cell value at that position belongs to the column's accepted-value set;
moreover any row the filter rejects yields no record. -/
theorem c3_filter_property (w : List String) (fc : List (String × List String)) (t : Table) :
    (∀ rec ∈ get_stock_details w fc t, ∃ tds, tds ∈ allRows t ∧
      tds.length = t.ths.length ∧ rec = buildRecord (scanHeader t.ths w fc).1 tds ∧
      ∀ j, j < t.ths.length → ((fc.lookup (pyStrip (t.ths.getD j ""))).isSome) →
        pyStrip (cellAt tds j) ∈ ((fc.lookup (pyStrip (t.ths.getD j ""))).getD []))
    ∧ (∀ tds, rowFiltered (scanHeader t.ths w fc).2 fc tds = true →
        processRow t.ths (scanHeader t.ths w fc).1 (scanHeader t.ths w fc).2 fc tds = none) := by
  constructor
  · intro rec hrec
    obtain ⟨tds, htds, hp⟩ := mem_get_stock_details w fc t rec hrec
    obtain ⟨hlen, hfil, hrec'⟩ := processRow_eq_some _ _ _ _ _ _ hp
    refine ⟨tds, htds, hlen, hrec', ?_⟩
    intro j hj hsome
    have hmem : (j, pyStrip (t.ths.getD j "")) ∈ (scanHeader t.ths w fc).2 := by
      have := scanHeaderAux_fi_complete w fc t.ths 0 ([], []) j hj hsome
      simpa [scanHeader] using this
    exact (rowFiltered_eq_false_iff _ _ _).mp hfil _ hmem
  · intro tds hfil
    by_cases h1 : tds.length = t.ths.length
    · simp [processRow, h1, hfil]
    · simp [processRow, h1]

/-- C5. Every record the extractor produces maps only labels from the
wanted-column set: no record key lies outside `w`. -/
theorem c5_wanted_columns_only (w : List String) (fc : List (String × List String)) (t : Table) :
    ∀ rec ∈ get_stock_details w fc t, ∀ kv ∈ rec, kv.1 ∈ w := by
  intro rec hrec kv hkv
  obtain ⟨tds, _, hp⟩ := mem_get_stock_details w fc t rec hrec
  obtain ⟨_, _, hrec'⟩ := processRow_eq_some _ _ _ _ _ _ hp
  subst hrec'
  refine buildRecord_keys w tds (scanHeader t.ths w fc).1 [] ?_ (by simp) kv hkv
  intro p hp'
  rcases scanHeaderAux_ii_sound w fc t.ths 0 ([], []) p (by simpa [scanHeader] using hp') with h | h
  · cases h
  · exact h

/-! ## C4: link classification -/

/-- C4. A URL containing `"pick-list"` classifies as Direct (`OPEN`);
otherwise one containing `"model-portfolio"` classifies as Indirect
(`CLICK`); all others as `UNSUPPORTED`. Classification is a pure function
of the URL alone (being a Lean function, repeated application is trivially
deterministic and order-independent). -/
theorem c4_classifier (url : String) :
    (strContains url "pick-list" → analyze_url url = URLType.OPEN)
    ∧ (¬ strContains url "pick-list" → strContains url "model-portfolio" →
        analyze_url url = URLType.CLICK)
    ∧ (¬ strContains url "pick-list" → ¬ strContains url "model-portfolio" →
        analyze_url url = URLType.UNSUPPORTED) := by
  refine ⟨fun h => ?_, fun h1 h2 => ?_, fun h1 h2 => ?_⟩ <;> simp [analyze_url, *]

/-- Closed instances of `c4_classifier` at concrete URLs. -/
theorem c4_classifier_witness :
    analyze_url "https://r.example/ideas/pick-list/12" = URLType.OPEN
    ∧ analyze_url "https://r.example/ideas/model-portfolio/12" = URLType.CLICK
    ∧ analyze_url "https://r.example/ideas/screener/12" = URLType.UNSUPPORTED :=
  ⟨(c4_classifier _).1 (by decide),
   (c4_classifier _).2.1 (by decide) (by decide),
   (c4_classifier _).2.2 (by decide) (by decide)⟩

/-! ## C6: cell-count mismatch -/

theorem length_filterMap_le_countP {α β : Type} (f : α → Option β) (p : α → Bool)
    (h : ∀ a, p a = false → f a = none) : ∀ l : List α, (l.filterMap f).length ≤ l.countP p := by
  intro l
  induction l with
  | nil => simp
  | cons a rest ih =>
    cases hfa : f a with
    | none =>
      rw [List.filterMap_cons_none hfa]
      cases hp : p a with
      | false => rw [List.countP_cons_of_neg _ _ (by simp [hp])]; exact ih
      | true => rw [List.countP_cons_of_pos _ _ hp]; exact Nat.le_succ_of_le ih
    | some b =>
      cases hp : p a with
      | false => exact absurd hfa (by simp [h a hp])
      | true =>
        rw [List.filterMap_cons_some hfa, List.countP_cons_of_pos _ _ hp]
        simpa using ih

theorem countP_flatten_eq_sum {α : Type} (p : α → Bool) (L : List (List α)) :
    L.flatten.countP p = (L.map (fun l => l.countP p)).sum := by
  induction L with
  | nil => rfl
  | cons l rest ih => simp [List.countP_append, ih]

/-- C6. A body row whose cell count differs from the header count yields no
record, whatever the discovered index maps are; hence the extractor returns
at most as many records as there are rows with matching cell count. -/
theorem c6_cell_count_mismatch (w : List String) (fc : List (String × List String)) (t : Table) :
    (∀ (ii : List (String × Nat)) (fi : List (Nat × String)) (tds : List String),
        tds.length ≠ t.ths.length → processRow t.ths ii fi fc tds = none)
    ∧ (get_stock_details w fc t).length ≤
        (allRows t).countP (fun tds => decide (tds.length = t.ths.length)) := by
  constructor
  · intro ii fi tds hne
    simp [processRow, hne]
  · unfold get_stock_details allRows
    rw [List.length_flatten, countP_flatten_eq_sum, List.map_map]
    apply List.sum_le_sum
    intro rows _
    simp only [Function.comp_apply]
    refine length_filterMap_le_countP _ _ ?_ rows
    intro tds hf
    simp only [decide_eq_false_iff_not] at hf
    simp [processRow, hf]

/-- Closed instance of `c6_cell_count_mismatch`: a three-cell row against a
four-column header yields no record, and on a region with one conforming and
one short row the extractor returns at most one record. -/
theorem c6_cell_count_mismatch_witness :
    processRow ["Name", "Ticker", "Base Currency", "Fair Value"] [] [] filter_criteria
        ["Acme", "ACM", "US Dollar"] = none
    ∧ (get_stock_details interesting_columns filter_criteria
        { ths := ["Name", "Ticker", "Base Currency", "Fair Value"],
          tbodies := [[["Acme", "ACM", "US Dollar", "42"], ["Acme", "ACM", "US Dollar"]]] }).length
      ≤ ([["Acme", "ACM", "US Dollar", "42"], ["Acme", "ACM", "US Dollar"]] :
          List (List String)).countP (fun tds => decide (tds.length = 4)) :=
  ⟨(c6_cell_count_mismatch interesting_columns filter_criteria
      { ths := ["Name", "Ticker", "Base Currency", "Fair Value"],
        tbodies := [[["Acme", "ACM", "US Dollar", "42"], ["Acme", "ACM", "US Dollar"]]] }).1
      [] [] _ (by decide),
   (c6_cell_count_mismatch interesting_columns filter_criteria
      { ths := ["Name", "Ticker", "Base Currency", "Fair Value"],
        tbodies := [[["Acme", "ACM", "US Dollar", "42"], ["Acme", "ACM", "US Dollar"]]] }).2⟩

/-! ## C7: filter column absent from the header -/

theorem lookup_filter_ne (fc : List (String × List String)) (L k : String) (h : k ≠ L) :
    (fc.filter (fun q => decide (q.1 ≠ L))).lookup k = fc.lookup k := by
  induction fc with
  | nil => rfl
  | cons q rest ih =>
    rcases q with ⟨a, b⟩
    simp only [decide_not] at ih ⊢
    by_cases hq : a = L
    · rw [List.filter_cons, if_neg (by simp [hq])]
      have hk : (k == a) = false := by
        rw [hq]; exact beq_eq_false_iff_ne.mpr h
      rw [ih]
      simp [List.lookup, hk]
    · rw [List.filter_cons, if_pos (by simp [hq])]
      cases hk : (k == a) <;> simp [List.lookup, hk, ih]

theorem scanHeaderAux_filter_eq (w : List String) (fc : List (String × List String)) (L : String) :
    ∀ (rest : List String) (i : Nat) (acc : List (String × Nat) × List (Nat × String)),
      (∀ th ∈ rest, pyStrip th ≠ L) →
      scanHeaderAux w (fc.filter (fun q => decide (q.1 ≠ L))) i rest acc
        = scanHeaderAux w fc i rest acc := by
  intro rest
  induction rest with
  | nil => intro i acc _; rfl
  | cons th rest ih =>
    intro i acc hne
    simp only [scanHeaderAux]
    rw [lookup_filter_ne fc L (pyStrip th) (hne th (List.mem_cons_self _ _)),
      ih (i + 1) _ (fun x hx => hne x (List.mem_cons_of_mem _ hx))]

theorem rowFiltered_filter_eq (fi : List (Nat × String)) (fc : List (String × List String))
    (L : String) (tds : List String) (h : ∀ p ∈ fi, p.2 ≠ L) :
    rowFiltered fi (fc.filter (fun q => decide (q.1 ≠ L))) tds = rowFiltered fi fc tds := by
  unfold rowFiltered
  induction fi with
  | nil => rfl
  | cons p rest ih =>
    simp only [List.any_cons]
    rw [lookup_filter_ne fc L p.2 (h p (List.mem_cons_self _ _)),
      ih (fun q hq => h q (List.mem_cons_of_mem _ hq))]

theorem processRow_filter_eq (ths : List String) (ii : List (String × Nat))
    (fi : List (Nat × String)) (fc : List (String × List String)) (L : String)
    (h : ∀ p ∈ fi, p.2 ≠ L) :
    processRow ths ii fi (fc.filter (fun q => decide (q.1 ≠ L)))
      = processRow ths ii fi fc := by
  funext tds
  unfold processRow
  rw [rowFiltered_filter_eq fi fc L tds h]

/-- C7. If a filter rule's column label `L` does not occur among the stripped
header labels, the extractor's output with that rule removed from the filter
criteria is identical to its output with the rule present: the filter never
rejects any row. -/
theorem c7_missing_filter_column_fail_open (w : List String) (fc : List (String × List String))
    (t : Table) (L : String) (hL : L ∉ t.ths.map pyStrip) :
    get_stock_details w (fc.filter (fun q => decide (q.1 ≠ L))) t
      = get_stock_details w fc t := by
  have hth : ∀ th ∈ t.ths, pyStrip th ≠ L := by
    intro th hth heq
    exact hL (List.mem_map.mpr ⟨th, hth, heq⟩)
  have hscan : scanHeader t.ths w (fc.filter (fun q => decide (q.1 ≠ L)))
      = scanHeader t.ths w fc := by
    unfold scanHeader
    exact scanHeaderAux_filter_eq w fc L t.ths 0 ([], []) hth
  have hfi : ∀ p ∈ (scanHeader t.ths w fc).2, p.2 ≠ L := by
    intro p hp heq
    rcases scanHeaderAux_fi_sound w fc t.ths 0 ([], []) p hp with h | h
    · cases h
    · rw [heq] at h; exact hL h
  unfold get_stock_details
  rw [hscan, processRow_filter_eq t.ths _ _ fc L hfi]

/-- Closed instance of `c7_missing_filter_column_fail_open`: on a header
without a `"Base Currency"` column, dropping the hard-coded currency rule
does not change the output (in particular the `"Euro"` row is kept either
way). -/
theorem c7_missing_filter_column_fail_open_witness :
    get_stock_details interesting_columns
        (filter_criteria.filter (fun q => decide (q.1 ≠ "Base Currency")))
        { ths := ["Name", "Ticker", "Currency", "Fair Value"],
          tbodies := [[["Acme", "ACM", "Euro", "42"]]] }
      = get_stock_details interesting_columns filter_criteria
        { ths := ["Name", "Ticker", "Currency", "Fair Value"],
          tbodies := [[["Acme", "ACM", "Euro", "42"]]] } :=
  c7_missing_filter_column_fail_open interesting_columns filter_criteria
    { ths := ["Name", "Ticker", "Currency", "Fair Value"],
      tbodies := [[["Acme", "ACM", "Euro", "42"]]] } "Base Currency" (by decide)

/-! ## Scenario data for the extractor witnesses -/

/-- The spec's worked scenario: four-column header, one US-Dollar row and one
Euro row. -/
def scenarioTable : Table :=
  { ths := ["Name", "Ticker", "Base Currency", "Fair Value"],
    tbodies := [[["Acme", "ACM", "US Dollar", "42"], ["Globex", "GBX", "Euro", "10"]]] }

/-- The scenario's wanted-column set. -/
def scenarioWanted : List String := ["Name", "Ticker", "Fair Value"]

/-- Closed instance of `c3_filter_property` on the scenario table: the single
returned record comes from a conforming row whose `"Base Currency"` cell is
accepted, and the `"Euro"` row produces no record. -/
theorem c3_filter_property_witness :
    (∃ tds, tds ∈ allRows scenarioTable ∧ tds.length = scenarioTable.ths.length ∧
      [("Name", "Acme"), ("Ticker", "ACM"), ("Fair Value", "42")]
        = buildRecord (scanHeader scenarioTable.ths scenarioWanted filter_criteria).1 tds ∧
      ∀ j, j < scenarioTable.ths.length →
        ((filter_criteria.lookup (pyStrip (scenarioTable.ths.getD j ""))).isSome) →
        pyStrip (cellAt tds j)
          ∈ ((filter_criteria.lookup (pyStrip (scenarioTable.ths.getD j ""))).getD []))
    ∧ processRow scenarioTable.ths (scanHeader scenarioTable.ths scenarioWanted filter_criteria).1
        (scanHeader scenarioTable.ths scenarioWanted filter_criteria).2 filter_criteria
        ["Globex", "GBX", "Euro", "10"] = none :=
  ⟨(c3_filter_property scenarioWanted filter_criteria scenarioTable).1
      [("Name", "Acme"), ("Ticker", "ACM"), ("Fair Value", "42")] (by decide),
   (c3_filter_property scenarioWanted filter_criteria scenarioTable).2
      ["Globex", "GBX", "Euro", "10"] (by decide)⟩

/-- Closed instance of `c5_wanted_columns_only`: the first key of the
scenario's returned record is a wanted column. -/
theorem c5_wanted_columns_only_witness : "Name" ∈ scenarioWanted :=
  c5_wanted_columns_only scenarioWanted filter_criteria scenarioTable
    [("Name", "Acme"), ("Ticker", "ACM"), ("Fair Value", "42")] (by decide)
    ("Name", "Acme") (by decide)

/-! ## C1: failure isolation of the indirect revisit loop -/

/-- A world in which the side-panel toggle never becomes clickable while
every other interaction would succeed. -/
def toggleStuckWorld : Nat → RevisitOutcome := fun _ =>
  { headerWaitOk := true, toggleWaitOk := false, toggleFindOk := true, toggleClickOk := true,
    cards := [] }

/-- C1 counterexample: with two queued targets and a side-panel toggle that
never becomes clickable, `click_all` raises at the first iteration and
attempts no target at all — failure to find or click the toggle is fatal and
the batch aborts early, contradicting the claim. -/
theorem c1_toggle_failure_aborts_batch :
    click_all toggleStuckWorld 0 ["https://a/model-portfolio/1", "https://a/model-portfolio/2"]
      = ([], some "TimeoutException: mds-navigation-panel-toggle-button") := by
  decide

/-- C1 amended: failures inside the per-card scan (missing title link,
failed activation) and the absence of any matching card are caught at the
card loop and never abort the batch; provided each iteration's header wait
and side-panel-toggle steps succeed, every queued target is attempted in
order and the loop finishes without an uncaught exception. (The
counterexample shows the claim's stronger form fails: an uncaught
header-wait or toggle failure aborts the whole batch.) -/
theorem c1_amended_revisit_isolation (world : Nat → RevisitOutcome) (targets : List String)
    (h : ∀ j, (world j).headerWaitOk = true ∧ (world j).toggleWaitOk = true ∧
      (world j).toggleFindOk = true ∧ (world j).toggleClickOk = true) (i : Nat) :
    (click_all world i targets).1.map Prod.fst = targets
      ∧ (click_all world i targets).2 = none := by
  induction targets generalizing i with
  | nil => exact ⟨rfl, rfl⟩
  | cons url rest ih =>
    obtain ⟨h1, h2, h3, h4⟩ := h i
    simp only [click_all, h1, h2, h3, h4]
    simp only [Bool.true_eq_false, if_false, List.map_cons]
    exact ⟨by rw [(ih (i + 1)).1], (ih (i + 1)).2⟩

/-- A world in which all per-target steps succeed while the card scans
contain a card whose title lookup fails, a matching card, and an unclickable
matching card — all non-fatal. -/
def allStepsOkWorld : Nat → RevisitOutcome := fun j =>
  { headerWaitOk := true, toggleWaitOk := true, toggleFindOk := true, toggleClickOk := true,
    cards :=
      if j = 0 then
        [{ titleHref := none, clickOk := true },
         { titleHref := some "https://a/model-portfolio/1", clickOk := true }]
      else
        [{ titleHref := some "https://a/model-portfolio/1", clickOk := false }] }

/-- Closed instance of `c1_amended_revisit_isolation`: both queued targets
are attempted and the loop ends without an uncaught exception, although the
second target has no activatable match. -/
theorem c1_amended_revisit_isolation_witness :
    (click_all allStepsOkWorld 0
        ["https://a/model-portfolio/1", "https://a/model-portfolio/2"]).1.map Prod.fst
      = ["https://a/model-portfolio/1", "https://a/model-portfolio/2"]
    ∧ (click_all allStepsOkWorld 0
        ["https://a/model-portfolio/1", "https://a/model-portfolio/2"]).2 = none :=
  c1_amended_revisit_isolation allStepsOkWorld _ (fun _ => ⟨rfl, rfl, rfl, rfl⟩) 0

/-! ## C2: newsletter file-name derivation -/

/-- C2 counterexample: for display text `"March 2024 Stock Investor"` the
code derives `"StockInvestor.pdf"` — the last *two* space-separated tokens —
not the claimed `"2024StockInvestor.pdf"`. -/
theorem c2_scenario_counterexample :
    get_file_name "March 2024 Stock Investor" ++ ".pdf" = "StockInvestor.pdf"
    ∧ ("StockInvestor.pdf" : String) ≠ "2024StockInvestor.pdf" := by
  exact ⟨rfl, by decide⟩

/-- C2 amended: the derived canonical file name is the concatenation of the
last two space-separated fields of the display text plus `".pdf"`; for
`"March 2024 Stock Investor"` that is exactly `"StockInvestor.pdf"`. -/
theorem c2_amended_file_name_derivation :
    (∀ text, get_file_name text = String.join (((pySplitSpace text).reverse.take 2).reverse))
    ∧ get_file_name "March 2024 Stock Investor" ++ ".pdf" = "StockInvestor.pdf" := by
  constructor
  · intro text
    unfold get_file_name
    rw [List.take_reverse, List.reverse_reverse]
  · rfl

/-! ## C8: rename step after a newsletter download -/

/-- C8 counterexample: when neither the raw display-text name nor its
hyphen-stripped variant is present in the download directory, `_rename_file`
does not return the canonical name — after printing the mismatch diagnostic
it still calls `os.rename` on the missing path, which raises. -/
theorem c8_rename_raises_counterexample :
    rename_file [] "Stock Investor - March 2024.pdf" "March2024.pdf"
      = Except.error "FileNotFoundError" := rfl

/-- C8 amended: the rename step first tries the file named by the raw
display text, then the hyphen-stripped variant, and returns the canonical
name when either exists; when neither exists it logs the name-mismatch
diagnostic and then raises from the unconditional rename instead of
returning. -/
theorem c8_amended_rename_behaviour (fs : List String) (filename new_filename : String) :
    (filename ∈ fs →
      rename_file fs filename new_filename
        = Except.ok ((fs.erase filename).insert new_filename, new_filename))
    ∧ (filename ∉ fs → removeHyphens filename ∈ fs →
      rename_file fs filename new_filename
        = Except.ok ((fs.erase (removeHyphens filename)).insert new_filename, new_filename))
    ∧ (filename ∉ fs → removeHyphens filename ∉ fs →
      rename_file fs filename new_filename = Except.error "FileNotFoundError") := by
  refine ⟨fun h => ?_, fun h1 h2 => ?_, fun h1 h2 => ?_⟩ <;> simp [rename_file, *]

/-- Closed instances of `c8_amended_rename_behaviour`: the raw-name case and
the neither-variant case. -/
theorem c8_amended_rename_behaviour_witness :
    rename_file ["Stock Investor - March 2024.pdf"] "Stock Investor - March 2024.pdf"
        "March2024.pdf"
      = Except.ok (((["Stock Investor - March 2024.pdf"] : List String).erase
          "Stock Investor - March 2024.pdf").insert "March2024.pdf", "March2024.pdf")
    ∧ rename_file [] "a-b.pdf" "c.pdf" = Except.error "FileNotFoundError" :=
  ⟨(c8_amended_rename_behaviour _ _ _).1 (by decide),
   (c8_amended_rename_behaviour _ _ _).2.2 (by decide) (by decide)⟩

/-! ## C9: idempotence of the newsletter fetch -/

/-- The landed file names served by the site in the counterexample. -/
def landCx : String → String := fun u => if u = "u1" then "Foo March 2024.pdf" else "x.pdf"

/-- The newsletter entries of the counterexample: the second entry's raw
name, hyphen-stripped, collides with the first entry's canonical name. -/
def entriesCx : List (String × String) := [("u1", "Foo March 2024"), ("u2", "March-2024")]

/-- C9 counterexample: a first run from an empty directory succeeds, but its
second rename finds neither variant of `"March-2024.pdf"` and falls back to
the hyphen-stripped `"March2024.pdf"` — the first entry's canonical file —
moving it away. The second run against the unchanged remote collection, with
no external deletions, therefore downloads the first entry again: its
`downloads` list is `["March2024.pdf"]`, not zero downloads. -/
theorem c9_second_run_counterexample :
    get_stock_newsletters landCx entriesCx []
      = Except.ok (["March2024.pdf", "March-2024.pdf"], ["March-2024.pdf", "x.pdf"])
    ∧ get_stock_newsletters landCx entriesCx ["March-2024.pdf", "x.pdf"]
      = Except.ok (["March2024.pdf"], ["March2024.pdf", "March-2024.pdf", "x.pdf"])
    ∧ (["March2024.pdf"] : List String) ≠ [] :=
  ⟨rfl, rfl, by decide⟩

/-- C9 amended: every entry whose canonical file name is already present in
the download directory is skipped before any navigation or click, so a run
starting with every entry's canonical name on disk performs zero downloads
and leaves the directory unchanged. A second run is download-free exactly
when the first run left every canonical name in place; the counterexample
shows a successful first run can move an earlier entry's canonical file away
through the hyphen-stripped rename fallback, so the unqualified claim
fails. -/
theorem c9_amended_idempotence (land : String → String) (arr : List (String × String))
    (fs : List String) (h : ∀ p ∈ arr, get_file_name p.2 ++ ".pdf" ∈ fs) :
    get_stock_newsletters land arr fs = Except.ok ([], fs) := by
  unfold get_stock_newsletters
  induction arr with
  | nil => rfl
  | cons p rest ih =>
    rcases p with ⟨url, text⟩
    have hp := h (url, text) (List.mem_cons_self _ _)
    simp only [newsletters_loop, if_pos hp]
    exact ih (fun q hq => h q (List.mem_cons_of_mem _ hq))

/-- Closed instance of `c9_amended_idempotence`: with both canonical names
already on disk, the fetch downloads nothing and leaves the directory as it
was. -/
theorem c9_amended_idempotence_witness :
    get_stock_newsletters landCx entriesCx ["March2024.pdf", "March-2024.pdf"]
      = Except.ok ([], ["March2024.pdf", "March-2024.pdf"]) :=
  c9_amended_idempotence landCx entriesCx ["March2024.pdf", "March-2024.pdf"] (by decide)

/-! ## C10: fatal startup on missing API key -/

/-- C10. If `GOOGLE_API_KEY` is unset, the program fails at module load with
the `ValueError` message, before any login or navigation (the run produces
no trace at all); and for any non-empty key the run succeeds with a result
that does not depend on the key's value — the configured summarization
client is invoked nowhere in the crawl or newsletter-fetch paths. -/
theorem c10_missing_api_key_fatal (env : String → Option String) (crawlTrace : List String)
    (h : env "GOOGLE_API_KEY" = none) :
    run_program env crawlTrace
      = Except.error "GOOGLE_API_KEY not found. Please set it in your environment or a .env file."
    ∧ ∀ key : String, key ≠ "" →
      run_program (fun v => if v = "GOOGLE_API_KEY" then some key else env v) crawlTrace
        = Except.ok crawlTrace := by
  constructor
  · simp [run_program, load_module, h]
  · intro key hk
    simp [run_program, load_module, hk]

/-- Closed instance of `c10_missing_api_key_fatal` at the empty environment. -/
theorem c10_missing_api_key_fatal_witness :
    run_program (fun _ => none) ["https://research-morningstar-com.ezproxy.sfpl.org/stocks"]
      = Except.error "GOOGLE_API_KEY not found. Please set it in your environment or a .env file."
    ∧ run_program (fun v => if v = "GOOGLE_API_KEY" then some "k" else none)
        ["https://research-morningstar-com.ezproxy.sfpl.org/stocks"]
      = Except.ok ["https://research-morningstar-com.ezproxy.sfpl.org/stocks"] :=
  ⟨(c10_missing_api_key_fatal (fun _ => none) _ rfl).1,
   (c10_missing_api_key_fatal (fun _ => none) _ rfl).2 "k" (by decide)⟩
